import Mathlib

/-!
# Verification of the chatx WebSocket hub and client-connection protocol

Shallow embedding of the real-time hub subsystem of the chatx backend:

* `internal/chat/controller/ws/hub.go` — the `Hub` registry
  (`clients`, `chatSubscriptions`), register/unregister, and the
  broadcast fan-out (`broadcastToChat`, `broadcastToUser`, `sendToUser`).
* `internal/chat/controller/ws/client.go` — the `Client` connection:
  bounded outbound queue, `Send`, `Close`, and the typing-message
  handler (`handleMessage` / `handleTyping`).
* `internal/chat/controller/ws/event.go` — the event/payload model.
* `internal/chat/controller/ws/broadcaster.go` — the `hubBroadcaster`
  facade.
* `internal/chat/controller/ws/handler.go` — the upgrade entrypoint
  (`ServeHTTP` / `broadcastPresence`): per-connection presence
  announcements.

Go maps are embedded as a key `Finset` plus a total value function that
returns the zero value (`∅` / `[]`) for absent keys, matching Go's
read-of-missing-key semantics.  Connection identities are abstract
naturals; the immutable attributes a connection is constructed with
(`userID`, the `chatIDs` snapshot) are given by an environment
`cinfo : Nat → ConnInfo`.  Timestamps (`time.Time`) are abstract
naturals.
-/

set_option maxRecDepth 1000000

/-- `EventType` from event.go: the closed enumeration of wire event types. -/
inductive EventType where
  | messageNew
  | messageEdit
  | messageDelete
  | messageRead
  | typingStart
  | typingStop
  | presenceOnline
  | presenceOffline
  | error
deriving DecidableEq, Repr

/-- `MessagePayload` from event.go (`sent_at` / `edited_at` are
`omitempty`; absent values are `none`). -/
structure MessagePayload where
  id : Nat
  chatID : Nat
  senderID : Nat
  content : String
  sentAt : Option Nat
  editedAt : Option Nat
deriving DecidableEq, Repr

/-- `MessageDeletePayload` from event.go. -/
structure MessageDeletePayload where
  id : Nat
  chatID : Nat
deriving DecidableEq, Repr

/-- `MessageReadPayload` from event.go. -/
structure MessageReadPayload where
  chatID : Nat
  userID : Nat
  messageID : Nat
  readAt : Nat
deriving DecidableEq, Repr

/-- `TypingPayload` from event.go. -/
structure TypingPayload where
  chatID : Nat
  userID : Nat
deriving DecidableEq, Repr

/-- `PresencePayload` from event.go. -/
structure PresencePayload where
  userID : Nat
  online : Bool
  lastSeen : Option Nat
deriving DecidableEq, Repr

/-- `ErrorPayload` from event.go. -/
structure ErrorPayload where
  code : String
  message : String
deriving DecidableEq, Repr

/-- The payload variants an `Event` can carry (tagged-union semantics). -/
inductive Payload where
  | message (p : MessagePayload)
  | messageDelete (p : MessageDeletePayload)
  | messageRead (p : MessageReadPayload)
  | typing (p : TypingPayload)
  | presence (p : PresencePayload)
  | error (p : ErrorPayload)
deriving DecidableEq, Repr

/-- `Event` from event.go: the server→client envelope. -/
structure Event where
  type : EventType
  payload : Payload
deriving DecidableEq, Repr

/-- `BroadcastMessage` from hub.go: a chat-broadcast request
(`ChatID`, `Event`, `ExcludeID`). -/
structure BroadcastMessage where
  chatID : Nat
  event : Event
  excludeID : Nat
deriving DecidableEq, Repr

/-- `sendBufferSize` from client.go: capacity of a connection's
outbound queue. -/
def sendBufferSize : Nat := 256

/-- `websocket.StatusNormalClosure` (RFC 6455 close code 1000), the
code `Client.Close` passes to the transport. -/
def statusNormalClosure : Nat := 1000

/-- The immutable attributes a `Client` is constructed with
(`NewClient` in client.go): its user ID and the chat-ID snapshot
loaded at connect time. -/
structure ConnInfo where
  user : Nat
  chats : List Nat
deriving DecidableEq, Repr

/-- Combined state of the hub and all connections:
`clients` / `chatSubscriptions` are the two hub maps (key set + value
function, zero value for absent keys); `queue c` is connection `c`'s
outbound buffered channel contents; `closedSig c` records whether
`c`'s `closed` channel has been closed; `closeCodes c` is the list of
close codes sent to `c`'s transport so far. -/
structure World where
  clientsKeys : Finset Nat
  clientsVal : Nat → Finset Nat
  subsKeys : Finset Nat
  subsVal : Nat → Finset Nat
  queue : Nat → List Event
  closedSig : Nat → Bool
  closeCodes : Nat → List Nat

/-- The state of a fresh process: both hub maps empty, every
connection unknown (empty queue, open signal, no transport closes). -/
def World.init : World where
  clientsKeys := ∅
  clientsVal := fun _ => ∅
  subsKeys := ∅
  subsVal := fun _ => ∅
  queue := fun _ => []
  closedSig := fun _ => false
  closeCodes := fun _ => []

/-- The non-blocking buffered-channel send with a `default` branch
(hub.go `sendToUser`): enqueue iff the buffer has room, else drop. -/
def trySend (q : List Event) (e : Event) : List Event :=
  if q.length < sendBufferSize then q ++ [e] else q

/-- `n` successive non-blocking send attempts of the same event
(one per matching user a connection is filed under — exactly one in
every reachable state, see `World.WF.owner`). -/
def attemptN (q : List Event) (e : Event) : Nat → List Event
  | 0 => q
  | n + 1 => trySend (attemptN q e n) e

/-- `Client.Close` (client.go): guarded by `closeOnce`, it closes the
`closed` signal channel and closes the transport with
`StatusNormalClosure`, at most once over the connection's lifetime. -/
def closeClient (w : World) (c : Nat) : World :=
  if w.closedSig c then w
  else
    { w with
      closedSig := fun d => if d = c then true else w.closedSig d
      closeCodes := fun d =>
        if d = c then w.closeCodes d ++ [statusNormalClosure] else w.closeCodes d }

/-- `Hub.registerClient` (hub.go): files the connection under its
user in `clients` and merges the connection's chat-ID snapshot into
`chatSubscriptions`. -/
def registerClient (cinfo : Nat → ConnInfo) (w : World) (c : Nat) : World :=
  let u := (cinfo c).user
  { w with
    clientsKeys := insert u w.clientsKeys
    clientsVal := fun v => if v = u then insert c (w.clientsVal v) else w.clientsVal v
    subsKeys := w.subsKeys ∪ (cinfo c).chats.toFinset
    subsVal := fun k =>
      if k ∈ (cinfo c).chats then insert u (w.subsVal k) else w.subsVal k }

/-- `Hub.unregisterClient` (hub.go): if the connection is filed under
its user, remove it and close it; when it was the user's last
connection, also delete the user from `clients` and prune them from
every chat subscription (dropping emptied chat keys).  Otherwise a
no-op. -/
def unregisterClient (cinfo : Nat → ConnInfo) (w : World) (c : Nat) : World :=
  let u := (cinfo c).user
  if u ∈ w.clientsKeys then
    if c ∈ w.clientsVal u then
      let rest := (w.clientsVal u).erase c
      let w1 := closeClient w c
      if rest = ∅ then
        { w1 with
          clientsKeys := w.clientsKeys.erase u
          clientsVal := fun v => if v = u then ∅ else w.clientsVal v
          subsKeys := w.subsKeys.filter fun k => (w.subsVal k).erase u ≠ ∅
          subsVal := fun k => if k ∈ w.subsKeys then (w.subsVal k).erase u else w.subsVal k }
      else
        { w1 with
          clientsVal := fun v => if v = u then rest else w.clientsVal v }
    else w
  else w

/-- `Hub.broadcastToChat` (hub.go): look up the chat's subscriber set
(early return when the chat key is absent); for every subscribed user
other than `ExcludeID`, `sendToUser` makes one non-blocking enqueue
attempt on each of that user's connections.  Stated per connection:
connection `c` gets one attempt for each subscribed, non-excluded
user it is filed under. -/
def broadcastToChat (cinfo : Nat → ConnInfo) (w : World) (k : Nat) (e : Event)
    (ex : Nat) : World :=
  if k ∈ w.subsKeys then
    { w with
      queue := fun c =>
        attemptN (w.queue c) e
          ((w.subsVal k).filter fun v => v ≠ ex ∧ c ∈ w.clientsVal v).card }
  else w

/-- `Hub.broadcastToUser` (hub.go): `sendToUser` for one user — one
non-blocking enqueue attempt on each of the user's connections (early
return when the user key is absent). -/
def broadcastToUser (w : World) (u : Nat) (e : Event) : World :=
  if u ∈ w.clientsKeys then
    { w with
      queue := fun c =>
        if c ∈ w.clientsVal u then trySend (w.queue c) e else w.queue c }
  else w

/-- `Hub.IsUserOnline` (hub.go): `ok && len(clients) > 0`. -/
def IsUserOnline (w : World) (u : Nat) : Bool :=
  decide (u ∈ w.clientsKeys) && decide (0 < (w.clientsVal u).card)

/-- Dispatching a `BroadcastMessage` through the hub's `broadcast`
channel ends in `broadcastToChat` (hub.go `Run`). -/
def dispatch (cinfo : Nat → ConnInfo) (w : World) (m : BroadcastMessage) : World :=
  broadcastToChat cinfo w m.chatID m.event m.excludeID

/-- Dispatching a list of broadcast requests in order. -/
def dispatchAll (cinfo : Nat → ConnInfo) (w : World) (ms : List BroadcastMessage) :
    World :=
  ms.foldl (dispatch cinfo) w

/-- Dispatching an optional broadcast request (`none` = no call into
the hub, state untouched). -/
def dispatchOpt (cinfo : Nat → ConnInfo) (w : World) :
    Option BroadcastMessage → World
  | none => w
  | some m => dispatch cinfo w m

/-! ## Client-side protocol: `Send` and the typing handler -/

/-- The possible outcomes of `Client.Send` (client.go).  The Go
`select` chooses uniformly among its *ready* cases, so `Send` is a
relation, not a function:

* `enq` — the buffered send `c.send <- event` is ready whenever the
  queue has room; the select may pick it (even if the connection is
  already closed) and `Send` returns `true`;
* `closedCase` — the receive `<-c.closed` is ready whenever the
  closed signal has been closed; the select may pick it and `Send`
  returns `false` without enqueueing;
* `full` — the `default` branch runs only when no other case is
  ready: the connection is open and the queue is full. -/
inductive SendStep : Bool → List Event → Event → Bool × List Event → Prop where
  | enq (closed : Bool) (q : List Event) (e : Event)
      (h : q.length < sendBufferSize) :
      SendStep closed q e (true, q ++ [e])
  | closedCase (q : List Event) (e : Event) :
      SendStep true q e (false, q)
  | full (q : List Event) (e : Event) (h : sendBufferSize ≤ q.length) :
      SendStep false q e (false, q)

/-- `ClientPayload` from event.go (the `chat_id` of a client-sent
message; Go's zero value `0` when the field is absent). -/
structure ClientPayload where
  chatID : Nat
deriving DecidableEq, Repr

/-- `ClientMessage` from event.go: the client→server envelope. -/
structure ClientMessage where
  type : EventType
  payload : ClientPayload
deriving DecidableEq, Repr

/-- `Client.handleTyping` (client.go): reject a zero chat ID; check
the claimed chat ID against the connection's chat-set snapshot
(ignore with a log when not a member); otherwise produce one typing
broadcast for that chat excluding the sender's own user ID. -/
def handleTyping (userID : Nat) (chatIDs : List Nat) (msg : ClientMessage) :
    Option BroadcastMessage :=
  if msg.payload.chatID = 0 then none
  else if msg.payload.chatID ∈ chatIDs then
    some
      { chatID := msg.payload.chatID
        event :=
          { type := msg.type
            payload := Payload.typing ⟨msg.payload.chatID, userID⟩ }
        excludeID := userID }
  else none

/-- `Client.handleMessage` (client.go): only `typing.start` and
`typing.stop` are dispatched to `handleTyping`; every other type is
logged and ignored. -/
def handleMessage (userID : Nat) (chatIDs : List Nat) (msg : ClientMessage) :
    Option BroadcastMessage :=
  match msg.type with
  | EventType.typingStart => handleTyping userID chatIDs msg
  | EventType.typingStop => handleTyping userID chatIDs msg
  | _ => none

/-! ## Broadcaster facade (broadcaster.go) -/

/-- `hubBroadcaster.BroadcastNewMessage`: builds a `message.new` event
and dispatches it with `excludeUserID = 0` ("Include sender"). -/
def BroadcastNewMessage (chatID messageID senderID : Nat) (content : String)
    (sentAt : Nat) : BroadcastMessage :=
  { chatID := chatID
    event :=
      { type := EventType.messageNew
        payload := Payload.message
          ⟨messageID, chatID, senderID, content, some sentAt, none⟩ }
    excludeID := 0 }

/-- `hubBroadcaster.BroadcastEditMessage`: builds a `message.edit`
event and dispatches it with `excludeUserID = 0` ("Include sender"). -/
def BroadcastEditMessage (chatID messageID senderID : Nat) (content : String)
    (editedAt : Nat) : BroadcastMessage :=
  { chatID := chatID
    event :=
      { type := EventType.messageEdit
        payload := Payload.message
          ⟨messageID, chatID, senderID, content, none, some editedAt⟩ }
    excludeID := 0 }

/-- `hubBroadcaster.BroadcastDeleteMessage`: builds a `message.delete`
event and dispatches it with `excludeUserID = 0` ("Include sender"). -/
def BroadcastDeleteMessage (chatID messageID : Nat) : BroadcastMessage :=
  { chatID := chatID
    event :=
      { type := EventType.messageDelete
        payload := Payload.messageDelete ⟨messageID, chatID⟩ }
    excludeID := 0 }

/-- `hubBroadcaster.BroadcastReadReceipt`: builds a `message.read`
event and dispatches it with `excludeUserID = userID` ("Exclude the
reader"). -/
def BroadcastReadReceipt (chatID userID messageID readAt : Nat) :
    BroadcastMessage :=
  { chatID := chatID
    event :=
      { type := EventType.messageRead
        payload := Payload.messageRead ⟨chatID, userID, messageID, readAt⟩ }
    excludeID := userID }

/-! ## Connection handler (handler.go) -/

/-- The presence event `Handler.broadcastPresence` constructs
(`LastSeen` is never set there). -/
def presenceEvent (u : Nat) (online : Bool) : Event :=
  { type := if online then EventType.presenceOnline else EventType.presenceOffline
    payload := Payload.presence ⟨u, online, none⟩ }

/-- `Handler.broadcastPresence` (handler.go): one
`BroadcastToChat(chatID, event, userID)` request per chat the user
belongs to (`getChats` embeds the successful
`chatRepo.GetUserChatIDs` lookup). -/
def broadcastPresence (getChats : Nat → List Nat) (u : Nat) (online : Bool) :
    List BroadcastMessage :=
  (getChats u).map fun k =>
    { chatID := k, event := presenceEvent u online, excludeID := u }

/-- The connect half of `Handler.ServeHTTP` (handler.go): after the
handshake the connection is registered and `broadcastPresence(userID,
true)` is dispatched — unconditionally, on *every* accepted
connection, with no check of how many connections the user already
has.  Returns the new state and the list of dispatched presence
broadcasts. -/
def serveConnect (cinfo : Nat → ConnInfo) (getChats : Nat → List Nat)
    (w : World) (c : Nat) : World × List BroadcastMessage :=
  let w1 := registerClient cinfo w c
  let ms := broadcastPresence getChats (cinfo c).user true
  (dispatchAll cinfo w1 ms, ms)

/-- The disconnect half of `Handler.ServeHTTP`: when `Client.Run`
returns, both pumps have run their deferred `hub.Unregister(c)` (the
second is a no-op), and then the handler dispatches
`broadcastPresence(userID, false)` — again unconditionally, on every
connection teardown. -/
def serveDisconnect (cinfo : Nat → ConnInfo) (getChats : Nat → List Nat)
    (w : World) (c : Nat) : World × List BroadcastMessage :=
  let w1 := unregisterClient cinfo (unregisterClient cinfo w c) c
  let ms := broadcastPresence getChats (cinfo c).user false
  (dispatchAll cinfo w1 ms, ms)

/-! ## Reachable hub states -/

/-- Hub states reachable through the hub's control loop.  The
`register` step carries `(cinfo c).user ≠ 0`: connections are
constructed only by `Handler.ServeHTTP` with an authenticated user's
database ID (a positive serial key); `0` is the hub's "exclude
no-one" sentinel, never a real user. -/
inductive Reach (cinfo : Nat → ConnInfo) : World → Prop where
  | init : Reach cinfo World.init
  | register {w : World} (c : Nat) (hu : (cinfo c).user ≠ 0) :
      Reach cinfo w → Reach cinfo (registerClient cinfo w c)
  | unregister {w : World} (c : Nat) :
      Reach cinfo w → Reach cinfo (unregisterClient cinfo w c)
  | bchat {w : World} (k : Nat) (e : Event) (ex : Nat) :
      Reach cinfo w → Reach cinfo (broadcastToChat cinfo w k e ex)
  | buser {w : World} (u : Nat) (e : Event) :
      Reach cinfo w → Reach cinfo (broadcastToUser w u e)
  | close {w : World} (c : Nat) :
      Reach cinfo w → Reach cinfo (closeClient w c)

/-- Hub states reachable using only register and unregister steps
(the quantification in claim C3). -/
inductive ReachRU (cinfo : Nat → ConnInfo) : World → Prop where
  | init : ReachRU cinfo World.init
  | register {w : World} (c : Nat) (hu : (cinfo c).user ≠ 0) :
      ReachRU cinfo w → ReachRU cinfo (registerClient cinfo w c)
  | unregister {w : World} (c : Nat) :
      ReachRU cinfo w → ReachRU cinfo (unregisterClient cinfo w c)

/-! ## Concrete test fixtures

Small concrete environments used to evaluate the definitions on
explicit inputs (witnesses and counterexamples). -/

/-- A sample `message.new` event (Scenario A of the spec). -/
def eA : Event :=
  { type := EventType.messageNew
    payload := Payload.message ⟨55, 7, 1, "hi", some 0, none⟩ }

/-- Environment A: connection 0 belongs to user 1 with chat snapshot
`[7]`, connection 1 to user 2 with `[7]`, all others to user 3 with
`[9]`. -/
def cinfoA : Nat → ConnInfo := fun c =>
  if c = 0 then ⟨1, [7]⟩
  else if c = 1 then ⟨2, [7]⟩
  else ⟨3, [9]⟩

/-- State A: connections 0 and 1 registered; users 1 and 2 both
subscribed to chat 7. -/
def wA : World := registerClient cinfoA (registerClient cinfoA World.init 0) 1

/-- State A after `sendBufferSize` user-directed broadcasts to user 2:
connection 1's outbound queue is full, connection 0's is empty. -/
def wFull : World := (fun w => broadcastToUser w 2 eA)^[sendBufferSize] wA

/-- Environment B (presence): connections 0 and 1 belong to user 5,
connection 2 to user 6; everyone's chat snapshot is `[7]`. -/
def cinfoB : Nat → ConnInfo := fun c =>
  if c = 0 then ⟨5, [7]⟩
  else if c = 1 then ⟨5, [7]⟩
  else ⟨6, [7]⟩

/-- Chat-membership lookup for environment B: users 5 and 6 are in
chat 7. -/
def getChatsB : Nat → List Nat := fun u =>
  if u = 5 then [7] else if u = 6 then [7] else []

/-- State B: user 6's connection 2 and user 5's first connection 0
are registered. -/
def wB : World := registerClient cinfoB (registerClient cinfoB World.init 2) 0

/-- Environment C (differing snapshots): connection 0 of user 1
declared chat 7, connection 1 of the same user declared no chats
(the user left chat 7 between the two connects). -/
def cinfoC : Nat → ConnInfo := fun c =>
  if c = 0 then ⟨1, [7]⟩
  else if c = 1 then ⟨1, []⟩
  else ⟨9, []⟩

/-- State C: both of user 1's connections registered, then the one
that declared chat 7 disconnected. -/
def wC : World :=
  unregisterClient cinfoC (registerClient cinfoC (registerClient cinfoC World.init 0) 1) 0

/-- Environment D (multi-device): connections 0 and 1 both belong to
user 4 with chat snapshot `[8]`. -/
def cinfoD : Nat → ConnInfo := fun _ => ⟨4, [8]⟩

/-- Every register/unregister-reachable state is reachable. -/
theorem ReachRU.toReach {cinfo : Nat → ConnInfo} {w : World}
    (h : ReachRU cinfo w) : Reach cinfo w := by
  induction h with
  | init => exact Reach.init
  | register c hu _ ih => exact Reach.register c hu ih
  | unregister c _ ih => exact Reach.unregister c ih

/-! ### Projection and characterization lemmas for the state operations -/

@[simp] theorem registerClient_clientsKeys (cinfo : Nat → ConnInfo) (w : World) (c : Nat) :
    (registerClient cinfo w c).clientsKeys = insert (cinfo c).user w.clientsKeys := rfl

@[simp] theorem registerClient_clientsVal (cinfo : Nat → ConnInfo) (w : World) (c : Nat) :
    (registerClient cinfo w c).clientsVal
      = fun v => if v = (cinfo c).user then insert c (w.clientsVal v) else w.clientsVal v :=
  rfl

@[simp] theorem registerClient_subsKeys (cinfo : Nat → ConnInfo) (w : World) (c : Nat) :
    (registerClient cinfo w c).subsKeys = w.subsKeys ∪ (cinfo c).chats.toFinset := rfl

@[simp] theorem registerClient_subsVal (cinfo : Nat → ConnInfo) (w : World) (c : Nat) :
    (registerClient cinfo w c).subsVal
      = fun k =>
          if k ∈ (cinfo c).chats then insert (cinfo c).user (w.subsVal k) else w.subsVal k :=
  rfl

@[simp] theorem registerClient_queue (cinfo : Nat → ConnInfo) (w : World) (c : Nat) :
    (registerClient cinfo w c).queue = w.queue := rfl

@[simp] theorem registerClient_closedSig (cinfo : Nat → ConnInfo) (w : World) (c : Nat) :
    (registerClient cinfo w c).closedSig = w.closedSig := rfl

@[simp] theorem registerClient_closeCodes (cinfo : Nat → ConnInfo) (w : World) (c : Nat) :
    (registerClient cinfo w c).closeCodes = w.closeCodes := rfl

@[simp] theorem closeClient_clientsKeys (w : World) (c : Nat) :
    (closeClient w c).clientsKeys = w.clientsKeys := by
  unfold closeClient; split <;> rfl

@[simp] theorem closeClient_clientsVal (w : World) (c : Nat) :
    (closeClient w c).clientsVal = w.clientsVal := by
  unfold closeClient; split <;> rfl

@[simp] theorem closeClient_subsKeys (w : World) (c : Nat) :
    (closeClient w c).subsKeys = w.subsKeys := by
  unfold closeClient; split <;> rfl

@[simp] theorem closeClient_subsVal (w : World) (c : Nat) :
    (closeClient w c).subsVal = w.subsVal := by
  unfold closeClient; split <;> rfl

@[simp] theorem closeClient_queue (w : World) (c : Nat) :
    (closeClient w c).queue = w.queue := by
  unfold closeClient; split <;> rfl

/-- A `Close` on an already-closed connection is a no-op
(`closeOnce.Do` runs the body only once). -/
theorem closeClient_of_closed {w : World} {c : Nat} (h : w.closedSig c = true) :
    closeClient w c = w := by
  unfold closeClient; rw [h]; rfl

/-- The first `Close` on an open connection: the closed signal is
set and one `StatusNormalClosure` is sent to the transport. -/
theorem closeClient_of_open {w : World} {c : Nat} (h : w.closedSig c = false) :
    closeClient w c =
      { w with
        closedSig := fun d => if d = c then true else w.closedSig d
        closeCodes := fun d =>
          if d = c then w.closeCodes d ++ [statusNormalClosure] else w.closeCodes d } := by
  unfold closeClient; rw [h]; rfl

/-- Unregistering a connection that is not filed under its user is a
strict no-op. -/
theorem unregisterClient_noop {cinfo : Nat → ConnInfo} {w : World} {c : Nat}
    (h : (cinfo c).user ∉ w.clientsKeys ∨ c ∉ w.clientsVal (cinfo c).user) :
    unregisterClient cinfo w c = w := by
  rcases h with h | h
  · simp only [unregisterClient, if_neg h]
  · by_cases h1 : (cinfo c).user ∈ w.clientsKeys
    · simp only [unregisterClient, if_pos h1, if_neg h]
    · simp only [unregisterClient, if_neg h1]

/-- Unregistering the user's last connection: the connection is
closed, the user's `clients` entry is deleted, and the user is pruned
from every chat subscription (emptied chat keys dropped). -/
theorem unregisterClient_last {cinfo : Nat → ConnInfo} {w : World} {c : Nat}
    (h1 : (cinfo c).user ∈ w.clientsKeys) (h2 : c ∈ w.clientsVal (cinfo c).user)
    (h3 : (w.clientsVal (cinfo c).user).erase c = ∅) :
    unregisterClient cinfo w c =
      { clientsKeys := w.clientsKeys.erase (cinfo c).user
        clientsVal := fun v => if v = (cinfo c).user then ∅ else w.clientsVal v
        subsKeys := w.subsKeys.filter fun k => (w.subsVal k).erase (cinfo c).user ≠ ∅
        subsVal := fun k =>
          if k ∈ w.subsKeys then (w.subsVal k).erase (cinfo c).user else w.subsVal k
        queue := w.queue
        closedSig := (closeClient w c).closedSig
        closeCodes := (closeClient w c).closeCodes } := by
  simp only [unregisterClient, if_pos h1, if_pos h2, if_pos h3, closeClient_queue]

/-- Unregistering a non-last connection: the connection is removed
from the user's set and closed; the maps' keys and all subscriptions
are untouched. -/
theorem unregisterClient_mid {cinfo : Nat → ConnInfo} {w : World} {c : Nat}
    (h1 : (cinfo c).user ∈ w.clientsKeys) (h2 : c ∈ w.clientsVal (cinfo c).user)
    (h3 : (w.clientsVal (cinfo c).user).erase c ≠ ∅) :
    unregisterClient cinfo w c =
      { clientsKeys := w.clientsKeys
        clientsVal := fun v =>
          if v = (cinfo c).user then (w.clientsVal (cinfo c).user).erase c
          else w.clientsVal v
        subsKeys := w.subsKeys
        subsVal := w.subsVal
        queue := w.queue
        closedSig := (closeClient w c).closedSig
        closeCodes := (closeClient w c).closeCodes } := by
  simp only [unregisterClient, if_pos h1, if_pos h2, if_neg h3,
    closeClient_clientsKeys, closeClient_subsKeys, closeClient_subsVal, closeClient_queue]

@[simp] theorem unregisterClient_queue (cinfo : Nat → ConnInfo) (w : World) (c : Nat) :
    (unregisterClient cinfo w c).queue = w.queue := by
  by_cases h1 : (cinfo c).user ∈ w.clientsKeys
  · by_cases h2 : c ∈ w.clientsVal (cinfo c).user
    · by_cases h3 : (w.clientsVal (cinfo c).user).erase c = ∅
      · rw [unregisterClient_last h1 h2 h3]
      · rw [unregisterClient_mid h1 h2 h3]
    · rw [unregisterClient_noop (Or.inr h2)]
  · rw [unregisterClient_noop (Or.inl h1)]

@[simp] theorem broadcastToChat_clientsKeys (cinfo : Nat → ConnInfo) (w : World)
    (k : Nat) (e : Event) (ex : Nat) :
    (broadcastToChat cinfo w k e ex).clientsKeys = w.clientsKeys := by
  unfold broadcastToChat; split <;> rfl

@[simp] theorem broadcastToChat_clientsVal (cinfo : Nat → ConnInfo) (w : World)
    (k : Nat) (e : Event) (ex : Nat) :
    (broadcastToChat cinfo w k e ex).clientsVal = w.clientsVal := by
  unfold broadcastToChat; split <;> rfl

@[simp] theorem broadcastToChat_subsKeys (cinfo : Nat → ConnInfo) (w : World)
    (k : Nat) (e : Event) (ex : Nat) :
    (broadcastToChat cinfo w k e ex).subsKeys = w.subsKeys := by
  unfold broadcastToChat; split <;> rfl

@[simp] theorem broadcastToChat_subsVal (cinfo : Nat → ConnInfo) (w : World)
    (k : Nat) (e : Event) (ex : Nat) :
    (broadcastToChat cinfo w k e ex).subsVal = w.subsVal := by
  unfold broadcastToChat; split <;> rfl

@[simp] theorem broadcastToChat_closedSig (cinfo : Nat → ConnInfo) (w : World)
    (k : Nat) (e : Event) (ex : Nat) :
    (broadcastToChat cinfo w k e ex).closedSig = w.closedSig := by
  unfold broadcastToChat; split <;> rfl

@[simp] theorem broadcastToUser_clientsKeys (w : World) (u : Nat) (e : Event) :
    (broadcastToUser w u e).clientsKeys = w.clientsKeys := by
  unfold broadcastToUser; split <;> rfl

@[simp] theorem broadcastToUser_clientsVal (w : World) (u : Nat) (e : Event) :
    (broadcastToUser w u e).clientsVal = w.clientsVal := by
  unfold broadcastToUser; split <;> rfl

@[simp] theorem broadcastToUser_subsKeys (w : World) (u : Nat) (e : Event) :
    (broadcastToUser w u e).subsKeys = w.subsKeys := by
  unfold broadcastToUser; split <;> rfl

@[simp] theorem broadcastToUser_subsVal (w : World) (u : Nat) (e : Event) :
    (broadcastToUser w u e).subsVal = w.subsVal := by
  unfold broadcastToUser; split <;> rfl
/-! ### Well-formedness invariants of reachable states -/

/-- The structural invariants of the hub maps the code maintains:
each connection is filed only under its own user; a key is present in
either map iff its set is nonempty; only nonzero (real) user IDs
occur; every chat a currently open connection declared is subscribed
by its user; a subscribed user is online. -/
structure World.WF (cinfo : Nat → ConnInfo) (w : World) : Prop where
  owner : ∀ u c, c ∈ w.clientsVal u → (cinfo c).user = u
  ckeys : ∀ u, u ∈ w.clientsKeys ↔ w.clientsVal u ≠ ∅
  skeys : ∀ k, k ∈ w.subsKeys ↔ w.subsVal k ≠ ∅
  clientNZ : ∀ u c, c ∈ w.clientsVal u → u ≠ 0
  subNZ : ∀ k u, u ∈ w.subsVal k → u ≠ 0
  declared : ∀ u c k, c ∈ w.clientsVal u → k ∈ (cinfo c).chats → u ∈ w.subsVal k
  subOnline : ∀ k u, u ∈ w.subsVal k → w.clientsVal u ≠ ∅

theorem World.WF.initial (cinfo : Nat → ConnInfo) : World.WF cinfo World.init := by
  constructor <;> intros <;> simp_all [World.init]

theorem World.WF.register {cinfo : Nat → ConnInfo} {w : World} {c : Nat}
    (hw : World.WF cinfo w) (hu : (cinfo c).user ≠ 0) :
    World.WF cinfo (registerClient cinfo w c) := by
  constructor
  · intro u c' hc'
    simp only [registerClient_clientsVal] at hc'
    by_cases h : u = (cinfo c).user
    · rw [if_pos h, Finset.mem_insert] at hc'
      rcases hc' with rfl | hc'
      · exact h.symm
      · exact hw.owner _ _ hc'
    · rw [if_neg h] at hc'
      exact hw.owner _ _ hc'
  · intro u
    simp only [registerClient_clientsKeys, registerClient_clientsVal, Finset.mem_insert]
    by_cases h : u = (cinfo c).user
    · simp [h, Finset.insert_ne_empty]
    · simp only [if_neg h, h, false_or]
      exact hw.ckeys u
  · intro k
    simp only [registerClient_subsKeys, registerClient_subsVal, Finset.mem_union,
      List.mem_toFinset]
    by_cases h : k ∈ (cinfo c).chats
    · simp [h, Finset.insert_ne_empty]
    · simp only [if_neg h, h, or_false]
      exact hw.skeys k
  · intro u c' hc'
    simp only [registerClient_clientsVal] at hc'
    by_cases h : u = (cinfo c).user
    · rw [h]; exact hu
    · rw [if_neg h] at hc'
      exact hw.clientNZ _ _ hc'
  · intro k u hu'
    simp only [registerClient_subsVal] at hu'
    by_cases h : k ∈ (cinfo c).chats
    · rw [if_pos h, Finset.mem_insert] at hu'
      rcases hu' with rfl | hu'
      · exact hu
      · exact hw.subNZ _ _ hu'
    · rw [if_neg h] at hu'
      exact hw.subNZ _ _ hu'
  · intro u c' k hc' hk
    simp only [registerClient_clientsVal] at hc'
    simp only [registerClient_subsVal]
    by_cases h : u = (cinfo c).user
    · rw [if_pos h, Finset.mem_insert] at hc'
      rcases hc' with rfl | hc'
      · rw [if_pos hk, h]
        exact Finset.mem_insert_self _ _
      · have := hw.declared _ _ _ hc' hk
        split
        · exact Finset.mem_insert_of_mem this
        · exact this
    · rw [if_neg h] at hc'
      have := hw.declared _ _ _ hc' hk
      split
      · exact Finset.mem_insert_of_mem this
      · exact this
  · intro k u hu'
    simp only [registerClient_subsVal] at hu'
    simp only [registerClient_clientsVal]
    by_cases h : u = (cinfo c).user
    · rw [if_pos h]
      exact Finset.insert_ne_empty _ _
    · rw [if_neg h]
      have hmem : u ∈ w.subsVal k := by
        by_cases hk : k ∈ (cinfo c).chats
        · rw [if_pos hk, Finset.mem_insert] at hu'
          rcases hu' with rfl | hu'
          · exact absurd rfl h
          · exact hu'
        · rwa [if_neg hk] at hu'
      exact hw.subOnline _ _ hmem

theorem World.WF.unregister {cinfo : Nat → ConnInfo} {w : World} {c : Nat}
    (hw : World.WF cinfo w) :
    World.WF cinfo (unregisterClient cinfo w c) := by
  by_cases h1 : (cinfo c).user ∈ w.clientsKeys
  case neg => rw [unregisterClient_noop (Or.inl h1)]; exact hw
  by_cases h2 : c ∈ w.clientsVal (cinfo c).user
  case neg => rw [unregisterClient_noop (Or.inr h2)]; exact hw
  by_cases h3 : (w.clientsVal (cinfo c).user).erase c = ∅
  · -- last connection of the user: user and all their subscriptions pruned
    rw [unregisterClient_last h1 h2 h3]
    constructor
    · intro u c' hc'
      simp only at hc'
      by_cases h : u = (cinfo c).user
      · rw [if_pos h] at hc'
        exact absurd hc' (Finset.not_mem_empty c')
      · rw [if_neg h] at hc'
        exact hw.owner _ _ hc'
    · intro u
      simp only [Finset.mem_erase]
      by_cases h : u = (cinfo c).user
      · simp [h]
      · rw [if_neg h]
        exact ⟨fun hh => (hw.ckeys u).mp hh.2, fun hh => ⟨h, (hw.ckeys u).mpr hh⟩⟩
    · intro k
      simp only [Finset.mem_filter]
      by_cases hk : k ∈ w.subsKeys
      · simp [if_pos hk, hk]
      · simp only [if_neg hk, hk, false_and, false_iff, not_not]
        by_contra hne
        exact hk ((hw.skeys k).mpr hne)
    · intro u c' hc'
      simp only at hc'
      by_cases h : u = (cinfo c).user
      · rw [if_pos h] at hc'
        exact absurd hc' (Finset.not_mem_empty c')
      · rw [if_neg h] at hc'
        exact hw.clientNZ _ _ hc'
    · intro k u hu'
      simp only at hu'
      by_cases hk : k ∈ w.subsKeys
      · rw [if_pos hk, Finset.mem_erase] at hu'
        exact hw.subNZ _ _ hu'.2
      · rw [if_neg hk] at hu'
        exact hw.subNZ _ _ hu'
    · intro u c' k hc' hk
      simp only at hc' ⊢
      by_cases h : u = (cinfo c).user
      · rw [if_pos h] at hc'
        exact absurd hc' (Finset.not_mem_empty c')
      · rw [if_neg h] at hc'
        have hmem := hw.declared _ _ _ hc' hk
        by_cases hks : k ∈ w.subsKeys
        · rw [if_pos hks, Finset.mem_erase]
          exact ⟨h, hmem⟩
        · rw [if_neg hks]
          exact hmem
    · intro k u hu'
      simp only at hu' ⊢
      by_cases hks : k ∈ w.subsKeys
      · rw [if_pos hks, Finset.mem_erase] at hu'
        rw [if_neg hu'.1]
        exact hw.subOnline _ _ hu'.2
      · rw [if_neg hks] at hu'
        exact absurd ((hw.skeys k).mpr (Finset.ne_empty_of_mem hu')) hks
  · -- user keeps other connections: subscriptions untouched
    rw [unregisterClient_mid h1 h2 h3]
    constructor
    · intro u c' hc'
      simp only at hc'
      by_cases h : u = (cinfo c).user
      · rw [if_pos h] at hc'
        rw [h]
        exact hw.owner _ _ (Finset.mem_of_mem_erase hc')
      · rw [if_neg h] at hc'
        exact hw.owner _ _ hc'
    · intro u
      simp only
      by_cases h : u = (cinfo c).user
      · rw [if_pos h, h]
        exact ⟨fun _ => h3, fun _ => h1⟩
      · rw [if_neg h]
        exact hw.ckeys u
    · intro k
      exact hw.skeys k
    · intro u c' hc'
      simp only at hc'
      by_cases h : u = (cinfo c).user
      · rw [h]
        exact hw.clientNZ _ _ h2
      · rw [if_neg h] at hc'
        exact hw.clientNZ _ _ hc'
    · intro k u hu'
      exact hw.subNZ _ _ hu'
    · intro u c' k hc' hk
      simp only at hc' ⊢
      by_cases h : u = (cinfo c).user
      · rw [if_pos h] at hc'
        rw [h]
        exact hw.declared _ _ _ (Finset.mem_of_mem_erase hc') hk
      · rw [if_neg h] at hc'
        exact hw.declared _ _ _ hc' hk
    · intro k u hu'
      simp only
      by_cases h : u = (cinfo c).user
      · rw [if_pos h]
        exact h3
      · rw [if_neg h]
        exact hw.subOnline _ _ hu'

/-- Every reachable state satisfies the structural invariants. -/
theorem Reach.wf {cinfo : Nat → ConnInfo} {w : World} (h : Reach cinfo w) :
    World.WF cinfo w := by
  induction h with
  | init => exact World.WF.initial cinfo
  | register c hu _ ih => exact ih.register hu
  | unregister c _ ih => exact ih.unregister
  | bchat k e ex _ ih =>
      exact ⟨by simpa using ih.owner, by simpa using ih.ckeys,
        by simpa using ih.skeys, by simpa using ih.clientNZ,
        by simpa using ih.subNZ, by simpa using ih.declared,
        by simpa using ih.subOnline⟩
  | buser u e _ ih =>
      exact ⟨by simpa using ih.owner, by simpa using ih.ckeys,
        by simpa using ih.skeys, by simpa using ih.clientNZ,
        by simpa using ih.subNZ, by simpa using ih.declared,
        by simpa using ih.subOnline⟩
  | close c _ ih =>
      exact ⟨by simpa using ih.owner, by simpa using ih.ckeys,
        by simpa using ih.skeys, by simpa using ih.clientNZ,
        by simpa using ih.subNZ, by simpa using ih.declared,
        by simpa using ih.subOnline⟩
/-! ### Per-connection effect of a chat broadcast -/

theorem trySend_of_room {q : List Event} (e : Event)
    (h : q.length < sendBufferSize) : trySend q e = q ++ [e] := if_pos h

theorem trySend_of_full {q : List Event} (e : Event)
    (h : sendBufferSize ≤ q.length) : trySend q e = q := if_neg (not_lt.mpr h)

/-- In a well-formed state, the subscriber-filter a connection `c` is
matched by during `broadcastToChat` is `{(cinfo c).user}` when `c`'s
user is a subscribed, non-excluded, online-via-`c` user, `∅`
otherwise: a connection is filed only under its own user. -/
theorem broadcast_filter_eq {cinfo : Nat → ConnInfo} {w : World}
    (hw : World.WF cinfo w) (k : Nat) (ex : Nat) (c : Nat) :
    ((w.subsVal k).filter fun v => v ≠ ex ∧ c ∈ w.clientsVal v) =
      (if (cinfo c).user ∈ w.subsVal k ∧ (cinfo c).user ≠ ex ∧
          c ∈ w.clientsVal (cinfo c).user
        then {(cinfo c).user} else ∅) := by
  ext v
  simp only [Finset.mem_filter]
  split
  case isTrue hcond =>
    simp only [Finset.mem_singleton]
    constructor
    · rintro ⟨_, _, hcv⟩
      exact (hw.owner _ _ hcv).symm
    · rintro rfl
      exact hcond
  case isFalse hcond =>
    simp only [Finset.not_mem_empty, iff_false, not_and]
    intro hsub hne hcv
    exact hcond ((hw.owner _ _ hcv) ▸ ⟨hsub, hne, hcv⟩)

/-- The effect of `Hub.broadcastToChat` on one connection's outbound
queue, in any well-formed state: one non-blocking enqueue attempt iff
the connection's user is subscribed to the chat, not excluded, and
the connection is registered; otherwise the queue is untouched. -/
theorem broadcastToChat_queue {cinfo : Nat → ConnInfo} {w : World}
    (hw : World.WF cinfo w) (k : Nat) (e : Event) (ex : Nat) (c : Nat) :
    (broadcastToChat cinfo w k e ex).queue c =
      if (cinfo c).user ∈ w.subsVal k ∧ (cinfo c).user ≠ ex ∧
          c ∈ w.clientsVal (cinfo c).user
      then trySend (w.queue c) e else w.queue c := by
  unfold broadcastToChat
  by_cases hk : k ∈ w.subsKeys
  · rw [if_pos hk]
    simp only
    rw [broadcast_filter_eq hw]
    split
    · simp [attemptN]
    · simp [attemptN]
  · rw [if_neg hk]
    have hempty : w.subsVal k = ∅ := by
      by_contra hne
      exact hk ((hw.skeys k).mpr hne)
    rw [if_neg]
    rintro ⟨hsub, -, -⟩
    rw [hempty] at hsub
    exact Finset.not_mem_empty _ hsub

/-- The effect of `Hub.broadcastToUser` on one connection's outbound
queue: one non-blocking enqueue attempt iff the target user is a
present key and the connection is one of the user's connections. -/
theorem broadcastToUser_queue (w : World) (u : Nat) (e : Event) (c : Nat) :
    (broadcastToUser w u e).queue c =
      if u ∈ w.clientsKeys ∧ c ∈ w.clientsVal u
      then trySend (w.queue c) e else w.queue c := by
  unfold broadcastToUser
  by_cases hk : u ∈ w.clientsKeys
  · rw [if_pos hk]
    simp only
    by_cases hc : c ∈ w.clientsVal u
    · rw [if_pos hc, if_pos ⟨hk, hc⟩]
    · rw [if_neg hc, if_neg (fun h => hc h.2)]
  · rw [if_neg hk, if_neg (fun h => hk h.1)]
/-! ### Reachability of the fixtures -/

theorem Reach.buser_iterate {cinfo : Nat → ConnInfo} {w : World}
    (h : Reach cinfo w) (u : Nat) (e : Event) (n : Nat) :
    Reach cinfo ((fun w => broadcastToUser w u e)^[n] w) := by
  induction n with
  | zero => simpa using h
  | succ n ih =>
      rw [Function.iterate_succ_apply']
      exact Reach.buser u e ih

theorem reachA : Reach cinfoA wA :=
  Reach.register 1 (by decide) (Reach.register 0 (by decide) Reach.init)

theorem reachFull : Reach cinfoA wFull :=
  Reach.buser_iterate reachA 2 eA sendBufferSize

theorem reachB : Reach cinfoB wB :=
  Reach.register 0 (by decide) (Reach.register 2 (by decide) Reach.init)

theorem reachRU_wC : ReachRU cinfoC wC :=
  ReachRU.unregister 0
    (ReachRU.register 1 (by decide) (ReachRU.register 0 (by decide) ReachRU.init))
/-- On its own connection, `Close` always leaves the closed signal
set, whether this call or an earlier one set it. -/
theorem closeClient_closedSig_self (w : World) (c : Nat) :
    (closeClient w c).closedSig c = true := by
  unfold closeClient
  by_cases h : w.closedSig c = true
  · rw [if_pos h]; exact h
  · rw [if_neg h]; simp

/-! ## Claims -/

/-- **C9.** `Close()` is idempotent: a second call on the same
connection changes nothing (no panic is possible — the operation is a
total function), the closed signal and the transport are closed
exactly once, the transport close uses the normal-closure code, and
the duplicate call broadcasts nothing (queues and both hub maps are
untouched by `Close`, so no `presence.offline` can result from it —
that event is only emitted by the handler once per connection
lifecycle). -/
theorem C9_close_idempotent (w : World) (c : Nat) :
    closeClient (closeClient w c) c = closeClient w c ∧
    (closeClient w c).queue = w.queue ∧
    (closeClient w c).clientsVal = w.clientsVal ∧
    (closeClient w c).subsVal = w.subsVal ∧
    (w.closedSig c = false →
      (closeClient w c).closedSig c = true ∧
      (closeClient w c).closeCodes c = w.closeCodes c ++ [statusNormalClosure] ∧
      (closeClient (closeClient w c) c).closeCodes c =
        w.closeCodes c ++ [statusNormalClosure]) := by
  have hidem : closeClient (closeClient w c) c = closeClient w c :=
    closeClient_of_closed (closeClient_closedSig_self w c)
  refine ⟨hidem, closeClient_queue w c, closeClient_clientsVal w c,
    closeClient_subsVal w c, fun hopen => ?_⟩
  have hcodes : (closeClient w c).closeCodes c =
      w.closeCodes c ++ [statusNormalClosure] := by
    rw [closeClient_of_open hopen]; simp
  exact ⟨closeClient_closedSig_self w c, hcodes, by rw [hidem]; exact hcodes⟩

/-- Witness for C9 at a concrete fresh connection. -/
theorem C9_close_idempotent_witness :
    World.init.closedSig 0 = false ∧
    (closeClient (closeClient World.init 0) 0).closeCodes 0 =
      World.init.closeCodes 0 ++ [statusNormalClosure] :=
  ⟨rfl, ((C9_close_idempotent World.init 0).2.2.2.2 rfl).2.2⟩

/-- **C10.** Unregistering a currently registered connection also
closes it as part of the unregister step: its closed signal ends set
and, if it was still open, exactly one normal-closure code is sent to
its transport.  Unregistering a connection that is not registered is
a strict no-op: the entire state — both hub maps included — is
unchanged and the connection is not closed. -/
theorem C10_unregister_closes_or_noop (cinfo : Nat → ConnInfo) (w : World) (c : Nat) :
    ((cinfo c).user ∈ w.clientsKeys → c ∈ w.clientsVal (cinfo c).user →
      (unregisterClient cinfo w c).closedSig c = true ∧
      (w.closedSig c = false →
        (unregisterClient cinfo w c).closeCodes c =
          w.closeCodes c ++ [statusNormalClosure])) ∧
    ((cinfo c).user ∉ w.clientsKeys ∨ c ∉ w.clientsVal (cinfo c).user →
      unregisterClient cinfo w c = w) := by
  constructor
  · intro h1 h2
    have hsig : (unregisterClient cinfo w c).closedSig c = true := by
      by_cases h3 : (w.clientsVal (cinfo c).user).erase c = ∅
      · rw [unregisterClient_last h1 h2 h3]
        exact closeClient_closedSig_self w c
      · rw [unregisterClient_mid h1 h2 h3]
        exact closeClient_closedSig_self w c
    refine ⟨hsig, fun hopen => ?_⟩
    have hcodes : (closeClient w c).closeCodes c =
        w.closeCodes c ++ [statusNormalClosure] := by
      rw [closeClient_of_open hopen]; simp
    by_cases h3 : (w.clientsVal (cinfo c).user).erase c = ∅
    · rw [unregisterClient_last h1 h2 h3]
      exact hcodes
    · rw [unregisterClient_mid h1 h2 h3]
      exact hcodes
  · exact unregisterClient_noop

/-- Witness for C10: both branches at concrete states — unregistering
registered connection 0 of state A closes it; unregistering it from
the empty state changes nothing. -/
theorem C10_unregister_closes_or_noop_witness :
    ((unregisterClient cinfoA wA 0).closedSig 0 = true ∧
      (unregisterClient cinfoA wA 0).closeCodes 0 =
        wA.closeCodes 0 ++ [statusNormalClosure]) ∧
    unregisterClient cinfoA World.init 0 = World.init := by
  have h := (C10_unregister_closes_or_noop cinfoA wA 0).1 (by decide) (by decide)
  exact ⟨⟨h.1, h.2 rfl⟩,
    (C10_unregister_closes_or_noop cinfoA World.init 0).2 (Or.inl (by decide))⟩
/-- **C5 (counterexample).** The claim "`Send` returns `false`
whenever the connection is closed" is false: when the connection is
closed *and* the queue has room, both the buffered send and the
closed-signal receive are ready, and Go's `select` picks among ready
cases at random — the send case may win, enqueueing the event and
returning `true`.  Concretely, from a closed connection with an empty
queue the outcome `(true, [eA])` is reachable. -/
theorem C5_send_closed_counterexample :
    SendStep true [] eA (true, [eA]) ∧
    ¬ (∀ (closed : Bool) (q : List Event) (e : Event) (r : Bool × List Event),
        SendStep closed q e r → closed = true → r.1 = false) := by
  refine ⟨SendStep.enq true [] eA (by decide), fun h => ?_⟩
  have := h true [] eA (true, [eA]) (SendStep.enq true [] eA (by decide)) rfl
  simp at this

/-- **C5 (amended).** `Send(event)` never blocks (every state has an
outcome) and its outcomes are exactly: `false` with the queue
unchanged whenever the queue holds `sendBufferSize` (256) events;
`true` with the event enqueued whenever the connection is open and
the queue has room; and when the connection is closed with room in
the queue, nondeterministically either of the two — so a closed
connection may still accept an event and report `true`. -/
theorem C5_send_semantics (closed : Bool) (q : List Event) (e : Event) :
    (∀ r, SendStep closed q e r →
      (sendBufferSize ≤ q.length → r = (false, q)) ∧
      (closed = false → q.length < sendBufferSize → r = (true, q ++ [e])) ∧
      (r = (true, q ++ [e]) ∨ r = (false, q))) ∧
    (∃ r, SendStep closed q e r) := by
  constructor
  · intro r h
    cases h with
    | enq _ _ _ hroom =>
        exact ⟨fun hfull => absurd hroom (not_lt.mpr hfull),
          fun _ _ => rfl, Or.inl rfl⟩
    | closedCase _ _ =>
        exact ⟨fun _ => rfl, fun hc => absurd hc (by simp), Or.inr rfl⟩
    | full _ _ hfull =>
        exact ⟨fun _ => rfl,
          fun _ hroom => absurd hroom (not_lt.mpr hfull), Or.inr rfl⟩
  · by_cases hroom : q.length < sendBufferSize
    · exact ⟨(true, q ++ [e]), SendStep.enq closed q e hroom⟩
    · cases closed with
      | true => exact ⟨(false, q), SendStep.closedCase q e⟩
      | false => exact ⟨(false, q), SendStep.full q e (not_lt.mp hroom)⟩

/-- Witness for C5 on a concrete open connection with room. -/
theorem C5_send_semantics_witness :
    SendStep false [] eA (true, [eA]) ∧ (∃ r, SendStep false [] eA r) :=
  ⟨SendStep.enq false [] eA (by decide), (C5_send_semantics false [] eA).2⟩

/-- **C4.** Typing authorization: for a received `typing.start` or
`typing.stop` (chat IDs are positive database keys, so `0` never
appears in a snapshot), a claimed `chat_id` outside the connection's
chat-set snapshot produces no broadcast request and leaves the hub
state unchanged; a claimed `chat_id` inside the snapshot produces
exactly one typing broadcast for that chat with the sender's own user
ID excluded — and dispatching the handler's result never changes the
sender's own connections' queues (no typing echo). -/
theorem C4_typing_authorization (uid : Nat) (chatIDs : List Nat) (msg : ClientMessage)
    (ht : msg.type = EventType.typingStart ∨ msg.type = EventType.typingStop)
    (h0 : 0 ∉ chatIDs) :
    (msg.payload.chatID ∉ chatIDs →
      handleMessage uid chatIDs msg = none ∧
      ∀ (cinfo : Nat → ConnInfo) (w : World),
        dispatchOpt cinfo w (handleMessage uid chatIDs msg) = w) ∧
    (msg.payload.chatID ∈ chatIDs →
      handleMessage uid chatIDs msg =
        some ⟨msg.payload.chatID,
          ⟨msg.type, Payload.typing ⟨msg.payload.chatID, uid⟩⟩, uid⟩) ∧
    (∀ (cinfo : Nat → ConnInfo) (w : World), Reach cinfo w →
      ∀ c, (cinfo c).user = uid →
        (dispatchOpt cinfo w (handleMessage uid chatIDs msg)).queue c = w.queue c) := by
  have hdis : handleMessage uid chatIDs msg = handleTyping uid chatIDs msg := by
    rcases ht with ht | ht <;> rw [handleMessage, ht]
  refine ⟨?_, ?_, ?_⟩
  · intro hnot
    have hnone : handleMessage uid chatIDs msg = none := by
      rw [hdis, handleTyping]
      by_cases hz : msg.payload.chatID = 0
      · rw [if_pos hz]
      · rw [if_neg hz, if_neg hnot]
    exact ⟨hnone, fun cinfo w => by rw [hnone]; rfl⟩
  · intro hmem
    have hz : msg.payload.chatID ≠ 0 := fun h => h0 (h ▸ hmem)
    rw [hdis, handleTyping, if_neg hz, if_pos hmem]
  · intro cinfo w hr c hc
    cases hm : handleMessage uid chatIDs msg with
    | none => rfl
    | some m =>
        have hex : m.excludeID = uid := by
          rw [hdis, handleTyping] at hm
          by_cases hz : msg.payload.chatID = 0
          · rw [if_pos hz] at hm; exact absurd hm (by simp)
          · rw [if_neg hz] at hm
            by_cases hmem : msg.payload.chatID ∈ chatIDs
            · rw [if_pos hmem] at hm
              cases hm; rfl
            · rw [if_neg hmem] at hm; exact absurd hm (by simp)
        show (dispatch cinfo w m).queue c = w.queue c
        rw [dispatch, broadcastToChat_queue hr.wf, if_neg]
        rintro ⟨-, hne, -⟩
        exact hne (hc.trans hex.symm)

/-- Witness for C4: both branches on concrete messages (connection of
user 1 with snapshot `[7]`). -/
theorem C4_typing_authorization_witness :
    handleMessage 1 [7] ⟨EventType.typingStart, ⟨9⟩⟩ = none ∧
    handleMessage 1 [7] ⟨EventType.typingStart, ⟨7⟩⟩ =
      some ⟨7, ⟨EventType.typingStart, Payload.typing ⟨7, 1⟩⟩, 1⟩ ∧
    (dispatchOpt cinfoA wA (handleMessage 1 [7] ⟨EventType.typingStart, ⟨7⟩⟩)).queue 0 =
      wA.queue 0 := by
  refine ⟨((C4_typing_authorization 1 [7] ⟨EventType.typingStart, ⟨9⟩⟩
      (Or.inl rfl) (by decide)).1 (by decide)).1,
    (C4_typing_authorization 1 [7] ⟨EventType.typingStart, ⟨7⟩⟩
      (Or.inl rfl) (by decide)).2.1 (by decide),
    (C4_typing_authorization 1 [7] ⟨EventType.typingStart, ⟨7⟩⟩
      (Or.inl rfl) (by decide)).2.2 cinfoA wA reachA 0 (by decide)⟩
/-- **C7.** The broadcaster facade: `BroadcastReadReceipt` builds a
`message.read` event and dispatches it excluding the reader's user
ID, while `BroadcastNewMessage`, `BroadcastEditMessage` and
`BroadcastDeleteMessage` build their events and dispatch with
`excludeUserID = 0` (no user excluded) — so in any reachable state a
subscribed sender's own open connection (with queue room) also
receives its own `message.new`. -/
theorem C7_broadcaster_exclusions (chatID messageID senderID userID readAt t : Nat)
    (content : String) :
    (BroadcastReadReceipt chatID userID messageID readAt).excludeID = userID ∧
    (BroadcastReadReceipt chatID userID messageID readAt).chatID = chatID ∧
    (BroadcastReadReceipt chatID userID messageID readAt).event =
      ⟨EventType.messageRead, Payload.messageRead ⟨chatID, userID, messageID, readAt⟩⟩ ∧
    (BroadcastNewMessage chatID messageID senderID content t).excludeID = 0 ∧
    (BroadcastNewMessage chatID messageID senderID content t).event =
      ⟨EventType.messageNew,
        Payload.message ⟨messageID, chatID, senderID, content, some t, none⟩⟩ ∧
    (BroadcastEditMessage chatID messageID senderID content t).excludeID = 0 ∧
    (BroadcastEditMessage chatID messageID senderID content t).event =
      ⟨EventType.messageEdit,
        Payload.message ⟨messageID, chatID, senderID, content, none, some t⟩⟩ ∧
    (BroadcastDeleteMessage chatID messageID).excludeID = 0 ∧
    (BroadcastDeleteMessage chatID messageID).event =
      ⟨EventType.messageDelete, Payload.messageDelete ⟨messageID, chatID⟩⟩ ∧
    (∀ (cinfo : Nat → ConnInfo) (w : World), Reach cinfo w →
      ∀ c, (cinfo c).user = senderID → senderID ∈ w.subsVal chatID →
        c ∈ w.clientsVal senderID → (w.queue c).length < sendBufferSize →
        (dispatch cinfo w (BroadcastNewMessage chatID messageID senderID content t)).queue c =
          w.queue c ++
            [⟨EventType.messageNew,
              Payload.message ⟨messageID, chatID, senderID, content, some t, none⟩⟩]) := by
  refine ⟨rfl, rfl, rfl, rfl, rfl, rfl, rfl, rfl, rfl, ?_⟩
  intro cinfo w hr c hc hsub hcv hroom
  have hnz : senderID ≠ 0 := hr.wf.subNZ _ _ hsub
  rw [dispatch, broadcastToChat_queue hr.wf]
  rw [if_pos ⟨hc ▸ hsub, hc ▸ hnz, hc ▸ (hc.symm ▸ hcv)⟩]
  exact trySend_of_room _ hroom

/-- Witness for C7: in state A, user 1's own connection 0 receives
the `message.new` it sent to chat 7. -/
theorem C7_broadcaster_exclusions_witness :
    (dispatch cinfoA wA (BroadcastNewMessage 7 55 1 "hi" 0)).queue 0 =
      wA.queue 0 ++
        [⟨EventType.messageNew, Payload.message ⟨55, 7, 1, "hi", some 0, none⟩⟩] :=
  (C7_broadcaster_exclusions 7 55 1 2 0 0 "hi").2.2.2.2.2.2.2.2.2 cinfoA wA reachA 0
    (by decide) (by decide) (by decide) (by decide)
/-- **C1 (amended).** In every reachable hub state,
`BroadcastToChat(C, E, u)` enqueues `E` exactly once on the outbound
queue of every open connection of every user subscribed to `C`
except `u` — *provided that connection's queue is not full*; a
connection whose queue already holds 256 events receives nothing
(the event is dropped for it, see C6).  All of the excluded user's
connections receive nothing, as do connections of unsubscribed users
and unregistered connections; and with `excludeUserID = 0` every
subscribed user's open connection with queue room receives exactly
one copy. -/
theorem C1_broadcast_fanout {cinfo : Nat → ConnInfo} {w : World}
    (hr : Reach cinfo w) (k : Nat) (e : Event) (ex : Nat) (c : Nat) :
    ((cinfo c).user = ex →
      (broadcastToChat cinfo w k e ex).queue c = w.queue c) ∧
    ((cinfo c).user ∉ w.subsVal k →
      (broadcastToChat cinfo w k e ex).queue c = w.queue c) ∧
    (c ∉ w.clientsVal (cinfo c).user →
      (broadcastToChat cinfo w k e ex).queue c = w.queue c) ∧
    ((cinfo c).user ∈ w.subsVal k → (cinfo c).user ≠ ex →
      c ∈ w.clientsVal (cinfo c).user →
      ((w.queue c).length < sendBufferSize →
        (broadcastToChat cinfo w k e ex).queue c = w.queue c ++ [e]) ∧
      (sendBufferSize ≤ (w.queue c).length →
        (broadcastToChat cinfo w k e ex).queue c = w.queue c)) ∧
    ((cinfo c).user ∈ w.subsVal k → c ∈ w.clientsVal (cinfo c).user →
      (w.queue c).length < sendBufferSize →
      (broadcastToChat cinfo w k e 0).queue c = w.queue c ++ [e]) := by
  have hq := broadcastToChat_queue hr.wf k e ex c
  refine ⟨?_, ?_, ?_, ?_, ?_⟩
  · intro hex
    rw [hq, if_neg]
    rintro ⟨-, hne, -⟩
    exact hne hex
  · intro hsub
    rw [hq, if_neg]
    rintro ⟨hs, -, -⟩
    exact hsub hs
  · intro hcv
    rw [hq, if_neg]
    rintro ⟨-, -, hv⟩
    exact hcv hv
  · intro hsub hne hcv
    rw [hq, if_pos ⟨hsub, hne, hcv⟩]
    exact ⟨fun hroom => trySend_of_room e hroom, fun hfull => trySend_of_full e hfull⟩
  · intro hsub hcv hroom
    have hnz : (cinfo c).user ≠ 0 := hr.wf.subNZ _ _ hsub
    rw [broadcastToChat_queue hr.wf k e 0 c, if_pos ⟨hsub, hnz, hcv⟩]
    exact trySend_of_room e hroom

/-- Witness for C1 in state A, broadcasting to chat 7 excluding
user 2: user 1's connection 0 receives exactly one copy, user 2's
connection 1 receives nothing. -/
theorem C1_broadcast_fanout_witness :
    (broadcastToChat cinfoA wA 7 eA 2).queue 0 = wA.queue 0 ++ [eA] ∧
    (broadcastToChat cinfoA wA 7 eA 2).queue 1 = wA.queue 1 :=
  ⟨((C1_broadcast_fanout reachA 7 eA 2 0).2.2.2.1 (by decide) (by decide)
      (by decide)).1 (by decide),
    (C1_broadcast_fanout reachA 7 eA 2 1).1 (by decide)⟩

/-- **C1 (counterexample).** The claim as stated fails when a
connection's outbound queue is full: in the reachable state `wFull`,
user 2 is subscribed to chat 7 and their connection 1 is open, yet a
`BroadcastToChat(7, eA, 0)` enqueues nothing on that connection (its
queue holds 256 events), instead of "exactly one copy". -/
theorem C1_full_queue_counterexample :
    Reach cinfoA wFull ∧
    2 ∈ wFull.subsVal 7 ∧
    (cinfoA 1).user = 2 ∧
    1 ∈ wFull.clientsVal 2 ∧
    (wFull.queue 1).length = sendBufferSize ∧
    (broadcastToChat cinfoA wFull 7 eA 0).queue 1 = wFull.queue 1 ∧
    (broadcastToChat cinfoA wFull 7 eA 0).queue 1 ≠ wFull.queue 1 ++ [eA] := by
  have hq := broadcastToChat_queue reachFull.wf 7 eA 0 1
  rw [if_pos ⟨by decide, by decide, by decide⟩] at hq
  have hdrop : (broadcastToChat cinfoA wFull 7 eA 0).queue 1 = wFull.queue 1 := by
    rw [hq]
    exact trySend_of_full eA (by decide)
  refine ⟨reachFull, by decide, by decide, by decide, by decide, hdrop, ?_⟩
  rw [hdrop]
  intro hcontra
  have := congrArg List.length hcontra
  simp at this
/-- **C6.** During a single chat broadcast, a connection whose
outbound queue is full has that one event dropped for that one
connection only: any other matching connection (subscribed,
non-excluded, with queue room) in the same broadcast still receives
the event, and the fan-out step completes without error — it is a
total function that, moreover, leaves both hub maps intact. -/
theorem C6_full_queue_drop_isolated {cinfo : Nat → ConnInfo} {w : World}
    (hr : Reach cinfo w) (k : Nat) (e : Event) (ex : Nat) (cf co : Nat)
    (hfs : (cinfo cf).user ∈ w.subsVal k) (hfx : (cinfo cf).user ≠ ex)
    (hfm : cf ∈ w.clientsVal (cinfo cf).user)
    (hffull : sendBufferSize ≤ (w.queue cf).length)
    (hos : (cinfo co).user ∈ w.subsVal k) (hox : (cinfo co).user ≠ ex)
    (hom : co ∈ w.clientsVal (cinfo co).user)
    (horoom : (w.queue co).length < sendBufferSize) :
    (broadcastToChat cinfo w k e ex).queue cf = w.queue cf ∧
    (broadcastToChat cinfo w k e ex).queue co = w.queue co ++ [e] ∧
    (broadcastToChat cinfo w k e ex).clientsKeys = w.clientsKeys ∧
    (broadcastToChat cinfo w k e ex).clientsVal = w.clientsVal ∧
    (broadcastToChat cinfo w k e ex).subsKeys = w.subsKeys ∧
    (broadcastToChat cinfo w k e ex).subsVal = w.subsVal := by
  refine ⟨?_, ?_, broadcastToChat_clientsKeys cinfo w k e ex,
    broadcastToChat_clientsVal cinfo w k e ex,
    broadcastToChat_subsKeys cinfo w k e ex,
    broadcastToChat_subsVal cinfo w k e ex⟩
  · rw [broadcastToChat_queue hr.wf k e ex cf, if_pos ⟨hfs, hfx, hfm⟩]
    exact trySend_of_full e hffull
  · rw [broadcastToChat_queue hr.wf k e ex co, if_pos ⟨hos, hox, hom⟩]
    exact trySend_of_room e horoom

/-- Witness for C6 in the reachable state `wFull`: connection 1's
queue is full (the event is dropped there) while connection 0 still
receives it in the same broadcast. -/
theorem C6_full_queue_drop_isolated_witness :
    (broadcastToChat cinfoA wFull 7 eA 3).queue 1 = wFull.queue 1 ∧
    (broadcastToChat cinfoA wFull 7 eA 3).queue 0 = wFull.queue 0 ++ [eA] := by
  have h := C6_full_queue_drop_isolated reachFull 7 eA 3 1 0
    (by decide) (by decide) (by decide) (by decide)
    (by decide) (by decide) (by decide) (by decide)
  exact ⟨h.1, h.2.1⟩
/-- **C8.** In every reachable hub state a userID is a key of
`clients` iff it has at least one open registered connection; and
(P4) from any reachable state, a user who registers two connections
and then unregisters one is still reported online by `IsUserOnline`,
and their remaining connection still receives chat broadcasts. -/
theorem C8_clients_online_invariant {cinfo : Nat → ConnInfo} {w : World}
    (hr : Reach cinfo w) :
    (∀ u, u ∈ w.clientsKeys ↔ w.clientsVal u ≠ ∅) ∧
    (∀ c1 c2 u k e,
      (cinfo c1).user = u → (cinfo c2).user = u → c1 ≠ c2 → u ≠ 0 →
      k ∈ (cinfo c2).chats → (w.queue c2).length < sendBufferSize →
      IsUserOnline
        (unregisterClient cinfo (registerClient cinfo (registerClient cinfo w c1) c2) c1)
        u = true ∧
      (broadcastToChat cinfo
          (unregisterClient cinfo (registerClient cinfo (registerClient cinfo w c1) c2) c1)
          k e 0).queue c2
        = w.queue c2 ++ [e]) := by
  refine ⟨hr.wf.ckeys, ?_⟩
  intro c1 c2 u k e h1 h2 hne hnz hk hroom
  have hreach3 :
      Reach cinfo
        (unregisterClient cinfo (registerClient cinfo (registerClient cinfo w c1) c2) c1) :=
    Reach.unregister c1
      (Reach.register c2 (by rw [h2]; exact hnz)
        (Reach.register c1 (by rw [h1]; exact hnz) hr))
  have hval2 :
      (registerClient cinfo (registerClient cinfo w c1) c2).clientsVal u
        = insert c2 (insert c1 (w.clientsVal u)) := by
    simp [h1, h2]
  have hkeys2 : u ∈ (registerClient cinfo (registerClient cinfo w c1) c2).clientsKeys := by
    simp [h2]
  have h1' : (cinfo c1).user ∈
      (registerClient cinfo (registerClient cinfo w c1) c2).clientsKeys := by
    rw [h1]; exact hkeys2
  have h2' : c1 ∈ (registerClient cinfo (registerClient cinfo w c1) c2).clientsVal
      (cinfo c1).user := by
    rw [h1, hval2]
    exact Finset.mem_insert_of_mem (Finset.mem_insert_self c1 _)
  have h3' : ((registerClient cinfo (registerClient cinfo w c1) c2).clientsVal
      (cinfo c1).user).erase c1 ≠ ∅ := by
    rw [h1, hval2]
    exact Finset.ne_empty_of_mem
      (Finset.mem_erase.mpr ⟨hne.symm, Finset.mem_insert_self c2 _⟩)
  rw [unregisterClient_mid h1' h2' h3']
  have hc2w3 : c2 ∈ (if u = (cinfo c1).user
      then ((registerClient cinfo (registerClient cinfo w c1) c2).clientsVal
        (cinfo c1).user).erase c1
      else (registerClient cinfo (registerClient cinfo w c1) c2).clientsVal u) := by
    rw [if_pos (by rw [h1]), h1, hval2]
    exact Finset.mem_erase.mpr ⟨hne.symm, Finset.mem_insert_self c2 _⟩
  have hsub3 : u ∈ (registerClient cinfo (registerClient cinfo w c1) c2).subsVal k := by
    simp only [registerClient_subsVal, if_pos hk]
    rw [h2]
    exact Finset.mem_insert_self u _
  constructor
  · rw [IsUserOnline]
    simp only [Bool.and_eq_true, decide_eq_true_eq]
    exact ⟨hkeys2, Finset.card_pos.mpr ⟨c2, hc2w3⟩⟩
  · have hw3 := hreach3.wf
    rw [unregisterClient_mid h1' h2' h3'] at hw3
    rw [broadcastToChat_queue hw3 k e 0 c2]
    rw [if_pos ⟨by rw [h2]; exact hsub3, by rw [h2]; exact hnz, by rw [h2]; exact hc2w3⟩]
    simp only [registerClient_queue]
    exact trySend_of_room e hroom
/-- Witness for C8: user 4 registers connections 0 and 1 (chat 8)
from the empty state, unregisters connection 0, stays online, and
connection 1 still receives a chat-8 broadcast. -/
theorem C8_clients_online_invariant_witness :
    IsUserOnline
      (unregisterClient cinfoD
        (registerClient cinfoD (registerClient cinfoD World.init 0) 1) 0) 4 = true ∧
    (broadcastToChat cinfoD
        (unregisterClient cinfoD
          (registerClient cinfoD (registerClient cinfoD World.init 0) 1) 0)
        8 eA 0).queue 1
      = World.init.queue 1 ++ [eA] :=
  (C8_clients_online_invariant Reach.init).2 0 1 4 8 eA rfl rfl
    (by decide) (by decide) (by decide) (by decide)
/-- **C2 (counterexample).** The claim that intermediate connections
never trigger a presence broadcast is false: `ServeHTTP` dispatches
`broadcastPresence(userID, online)` unconditionally on every
connection.  In the reachable state `wB`, user 5 already has open
connection 0; connecting their second connection 1 still emits a
`presence.online` broadcast, which user 6's connection 2 receives. -/
theorem C2_presence_counterexample :
    Reach cinfoB wB ∧
    0 ∈ wB.clientsVal 5 ∧
    (cinfoB 1).user = 5 ∧
    (serveConnect cinfoB getChatsB wB 1).2 = [⟨7, presenceEvent 5 true, 5⟩] ∧
    (serveConnect cinfoB getChatsB wB 1).1.queue 2 = [presenceEvent 5 true] ∧
    (serveConnect cinfoB getChatsB wB 1).2 ≠ [] :=
  ⟨reachB, by decide, by decide, by decide, by decide, by decide⟩

/-- **C2 (amended).** Presence announcements occur on *every*
connection edge, not only the first/last: each accepted connection
triggers exactly one `presence.online` broadcast to the user's chat
set at registration and exactly one `presence.offline` after it
closes, with the user themself excluded — regardless of how many
other connections the user has open (the emitted requests do not
depend on the hub state at all), and another online subscriber of the
user's chat receives the `presence.online` event. -/
theorem C2_presence_every_connection {cinfo : Nat → ConnInfo}
    (getChats : Nat → List Nat) {w : World} (hr : Reach cinfo w) (c : Nat)
    (hnz : (cinfo c).user ≠ 0) :
    ((serveConnect cinfo getChats w c).2 =
      (getChats (cinfo c).user).map fun k =>
        ⟨k, presenceEvent (cinfo c).user true, (cinfo c).user⟩) ∧
    ((serveDisconnect cinfo getChats w c).2 =
      (getChats (cinfo c).user).map fun k =>
        ⟨k, presenceEvent (cinfo c).user false, (cinfo c).user⟩) ∧
    (∀ w' : World,
      (serveConnect cinfo getChats w' c).2 = (serveConnect cinfo getChats w c).2) ∧
    (∀ k v c', getChats (cinfo c).user = [k] →
      v ∈ w.subsVal k → v ≠ (cinfo c).user → c' ∈ w.clientsVal v →
      (w.queue c').length < sendBufferSize →
      (serveConnect cinfo getChats w c).1.queue c' =
        w.queue c' ++ [presenceEvent (cinfo c).user true]) := by
  refine ⟨rfl, rfl, fun w' => rfl, ?_⟩
  intro k v c' hsingle hv hneq hc' hroom
  have howner : (cinfo c').user = v := hr.wf.owner v c' hc'
  have hsubw1 : v ∈ (registerClient cinfo w c).subsVal k := by
    simp only [registerClient_subsVal]
    split
    · exact Finset.mem_insert_of_mem hv
    · exact hv
  have hcw1 : c' ∈ (registerClient cinfo w c).clientsVal v := by
    simp only [registerClient_clientsVal]
    rw [if_neg hneq]
    exact hc'
  show (dispatchAll cinfo (registerClient cinfo w c)
      (broadcastPresence getChats (cinfo c).user true)).queue c' = _
  rw [broadcastPresence, hsingle]
  simp only [List.map, dispatchAll, List.foldl, dispatch]
  rw [broadcastToChat_queue (Reach.register c hnz hr).wf]
  rw [if_pos ⟨by rw [howner]; exact hsubw1, by rw [howner]; exact hneq,
    by rw [howner]; exact hcw1⟩]
  simp only [registerClient_queue]
  exact trySend_of_room _ hroom

/-- Witness for C2: connecting user 5's second connection in state B
delivers `presence.online` to user 6's connection 2. -/
theorem C2_presence_every_connection_witness :
    (serveConnect cinfoB getChatsB wB 1).1.queue 2 =
      wB.queue 2 ++ [presenceEvent 5 true] :=
  (C2_presence_every_connection getChatsB reachB 1 (by decide)).2.2.2 7 6 2
    (by decide) (by decide) (by decide) (by decide) (by decide)
/-- **C3 (counterexample).** The biconditional fails: in state `wC` —
reachable by register/unregister alone — user 1 is still a member of
`chatSubscriptions[7]` although their only remaining open connection
(connection 1) declared no chats.  The subscription created by the
already-closed connection 0 persists because `unregisterClient`
prunes subscriptions only when the user's *last* connection leaves. -/
theorem C3_subscription_counterexample :
    ReachRU cinfoC wC ∧
    1 ∈ wC.subsVal 7 ∧
    wC.clientsVal 1 = {1} ∧
    (cinfoC 1).chats = [] ∧
    ¬ (∀ u k, u ∈ wC.subsVal k →
        ∃ c, c ∈ wC.clientsVal u ∧ k ∈ (cinfoC c).chats) := by
  refine ⟨reachRU_wC, by decide, by decide, by decide, fun h => ?_⟩
  obtain ⟨c, hc, hk⟩ := h 1 7 (by decide)
  have hc1 : c = 1 := by
    have : c ∈ ({1} : Finset Nat) := by
      have hval : wC.clientsVal 1 = {1} := by decide
      rw [← hval]; exact hc
    simpa using this
  rw [hc1] at hk
  simp [cinfoC] at hk

/-- **C3 (amended).** In every hub state reachable by register and
unregister operations: if at least one of a user's currently open
connections declared membership in `chatID` at connect time then the
user is a member of `chatSubscriptions[chatID]`; and conversely a
member of `chatSubscriptions[chatID]` always has at least one open
connection — but not necessarily one that declared that chat: a
subscription contributed by a connection of the user's current online
session persists after that connection closes, until the user's last
connection closes. -/
theorem C3_subscription_invariant {cinfo : Nat → ConnInfo} {w : World}
    (hr : ReachRU cinfo w) :
    (∀ u c k, c ∈ w.clientsVal u → k ∈ (cinfo c).chats → u ∈ w.subsVal k) ∧
    (∀ u k, u ∈ w.subsVal k → w.clientsVal u ≠ ∅) := by
  have hw := hr.toReach.wf
  exact ⟨hw.declared, fun u k h => hw.subOnline k u h⟩

/-- Witness for C3 in state `wC`: the open connection 1 of user 1
declared no chats, yet user 1 is subscribed to chat 7 and indeed
still online. -/
theorem C3_subscription_invariant_witness :
    1 ∈ wC.subsVal 7 ∧ wC.clientsVal 1 ≠ ∅ :=
  ⟨by decide, (C3_subscription_invariant reachRU_wC).2 1 7 (by decide)⟩
